import Mathlib

/-!
Verification of the digit-image slot cache of the CSTPebble watchface
(`src/src/cst.c`).

The core of the program is a cache of four on-screen digit slots.  Each
slot holds the digit currently displayed there (`image_slot_state`, with
`EMPTY_SLOT = -1` for an empty slot) together with the loaded bitmap and
its bitmap layer (`images` / `image_layers`).  The functions embedded
below are

  * `load_digit_image_into_slot`  — acquires a digit bitmap from the
    resource store and installs it in a slot,
  * `unload_digit_image_from_slot` — releases a slot's bitmap and layer,
  * `display_value`               — renders a two-digit value into one
    row of two slots,
  * `get_display_hour`            — the 12/24-hour display policy,
  * `teardown`                    — the slot-unloading loop of
    `app_destroy`.

The resource store (`gbitmap_create_with_resource`) is modelled by a
function `ok : Nat → Bool` saying whether acquisition of the bitmap for
a given digit succeeds.  The C code does not check the returned handle:
on a NULL return it immediately dereferences `images[slot]->bounds`,
which is undefined behaviour (a crash in practice).  The model therefore
returns `Option CacheState`, with `none` marking that crash.

Handles are modelled by the digit they were acquired for; a released
handle is modelled by `none` (the C code leaves a dangling pointer in
`images[slot]`, but the asset itself is destroyed).  The ghost counters
`acquires` / `releases` count successful `gbitmap_create_with_resource`
calls and `gbitmap_destroy` calls.
-/

namespace CSTPebble

/-- `EMPTY_SLOT` marker from `cst.c` line 84. -/
def EMPTY_SLOT : Int := -1

/-- `TOTAL_IMAGE_SLOTS` from `cst.c` line 37. -/
def TOTAL_IMAGE_SLOTS : Nat := 4

/-- The mutable state of the slot cache: `image_slot_state`, `images`
and `image_layers` from `cst.c` lines 76-88, plus ghost counters for
successful bitmap acquisitions and bitmap releases. -/
structure CacheState where
  image_slot_state : List Int
  images : List (Option Nat)
  image_layers : List (Option Nat)
  acquires : Nat
  releases : Nat
deriving Repr, DecidableEq

/-- The initial cache state (`cst.c` line 88): every slot empty, no
bitmap or layer loaded. -/
def initState : CacheState :=
  { image_slot_state := [EMPTY_SLOT, EMPTY_SLOT, EMPTY_SLOT, EMPTY_SLOT]
    images := [none, none, none, none]
    image_layers := [none, none, none, none]
    acquires := 0
    releases := 0 }

/-- `load_digit_image_into_slot` (`cst.c` lines 113-130).  Guards the
slot index against `0 ≤ slot < TOTAL_IMAGE_SLOTS` and the digit against
`0 ≤ digit ≤ 9`; out-of-range arguments fall through silently (the code
carries a `TODO: Signal these error's` comment).  When the slot is
empty it acquires the digit's bitmap; `ok digit = false` models
`gbitmap_create_with_resource` returning NULL, after which the C code
dereferences the NULL handle (`images[slot]->bounds`), modelled as
`none` (crash). -/
def load_digit_image_into_slot (ok : Nat → Bool) (slot_number digit_value : Int)
    (s : CacheState) : Option CacheState :=
  if 0 ≤ slot_number ∧ slot_number < (TOTAL_IMAGE_SLOTS : Int) then
    if 0 ≤ digit_value ∧ digit_value ≤ 9 then
      if s.image_slot_state.getD slot_number.toNat EMPTY_SLOT = EMPTY_SLOT then
        if ok digit_value.toNat then
          some { s with
            images := s.images.set slot_number.toNat (some digit_value.toNat)
            image_layers := s.image_layers.set slot_number.toNat (some digit_value.toNat)
            image_slot_state := s.image_slot_state.set slot_number.toNat digit_value
            acquires := s.acquires + 1 }
        else
          none
      else
        some s
    else
      some s
  else
    some s

/-- `unload_digit_image_from_slot` (`cst.c` lines 138-145).  If the slot
is occupied it removes the layer, destroys layer and bitmap (one asset
release) and marks the slot empty; on an empty slot it is a no-op.  The
C parameter is an `int` that is never bounds-checked; every call site in
the program passes `0..3`, so the model takes a `Nat` (an out-of-range
index reads the `getD` default and is a no-op, which is only meaningful
for in-range indices since the C behaviour there is undefined). -/
def unload_digit_image_from_slot (slot_number : Nat) (s : CacheState) : CacheState :=
  if s.image_slot_state.getD slot_number EMPTY_SLOT ≠ EMPTY_SLOT then
    { s with
      images := s.images.set slot_number none
      image_layers := s.image_layers.set slot_number none
      image_slot_state := s.image_slot_state.set slot_number EMPTY_SLOT
      releases := s.releases + 1 }
  else
    s

/-- Call-trace events recording the slot-cache calls a `display_value`
pass performs: `clearCall p` for an `unload_digit_image_from_slot(p)`
call, `displayCall p d` for a `load_digit_image_into_slot(p, d)` call. -/
inductive Ev where
  | clearCall : Nat → Ev
  | displayCall : Nat → Nat → Ev
deriving Repr, DecidableEq

/-- Body of the column loop of `display_value` (`cst.c` lines 162-172)
for one column: computes the slot number and digit, and when `changed`
is set or the digit differs from the slot's current state, unloads the
slot and — unless the leading-zero blanking condition applies (digit 0
in slot 0 with the zero-prefix option off) — loads the new digit.  The
`zero_prefix` flag is the global of `cst.c` line 94, passed here as a
parameter.  Returns the new state and the list of slot-cache calls
made. -/
def display_value_col (ok : Nat → Bool) ( zero_prefix : Bool)
    (value row_number col_number : Nat) (changed : Bool)
    (s : CacheState) : Option (CacheState × List Ev) :=
  let slot_number := row_number * 2 + col_number
  let digit := value % 10
  if changed = true ∨ (digit : Int) ≠ s.image_slot_state.getD slot_number EMPTY_SLOT then
    let s1 := unload_digit_image_from_slot slot_number s
    if zero_prefix = true ∨ digit ≠ 0 ∨ slot_number ≠ 0 then
      match load_digit_image_into_slot ok (slot_number : Int) (digit : Int) s1 with
      | some s2 => some (s2, [Ev.clearCall slot_number, Ev.displayCall slot_number digit])
      | none => none
    else
      some (s1, [Ev.clearCall slot_number])
  else
    some (s, [])

/-- `display_value` (`cst.c` lines 157-173): reduces the value modulo
100, then runs the column loop for `col_number = 1` and then
`col_number = 0` (the loop counts down), dividing the value by 10
between the iterations.  A crash in either column aborts the pass. -/
def display_value (ok : Nat → Bool) ( zero_prefix : Bool)
    (value row_number : Nat) (changed : Bool)
    (s : CacheState) : Option (CacheState × List Ev) :=
  let v := value % 100
  match display_value_col ok zero_prefix v row_number 1 changed s with
  | none => none
  | some (s1, e1) =>
    match display_value_col ok zero_prefix (v / 10) row_number 0 changed s1 with
    | none => none
    | some (s2, e2) => some (s2, e1 ++ e2)

/-- `get_display_hour` (`cst.c` lines 175-183).  The external
`clock_is_24h_style()` reading is passed as the parameter
`is_24h_style`.  In 24-hour style the hour is returned unchanged;
otherwise `hour % 12` with a zero result mapped to 12 (the C code's
`display_hour ? display_hour : 12`). -/
def get_display_hour (is_24h_style : Bool) (hour : Nat) : Nat :=
  if is_24h_style then
    hour
  else
    let display_hour := hour % 12
    if display_hour ≠ 0 then display_hour else 12

/-- The slot-cache part of `app_destroy` (`cst.c` lines 463-465): calls
`unload_digit_image_from_slot` on every slot `0..3` in order. -/
def teardown (s : CacheState) : CacheState :=
  (List.range TOTAL_IMAGE_SLOTS).foldl (fun t i => unload_digit_image_from_slot i t) s

/-- A slot-cache operation: a `load_digit_image_into_slot` call
(`display`) or an `unload_digit_image_from_slot` call (`clear`). -/
inductive Op where
  | display : Int → Int → Op
  | clear : Nat → Op
deriving Repr, DecidableEq

/-- Apply one operation to the cache state (`none` = crash). -/
def applyOp (ok : Nat → Bool) (o : Op) (s : CacheState) : Option CacheState :=
  match o with
  | Op.display p d => load_digit_image_into_slot ok p d s
  | Op.clear p => some (unload_digit_image_from_slot p s)

/-- Run a sequence of slot-cache operations, propagating a crash. -/
def run (ok : Nat → Bool) (ops : List Op) (s : CacheState) : Option CacheState :=
  match ops with
  | [] => some s
  | o :: os =>
    match applyOp ok o s with
    | none => none
    | some s1 => run ok os s1

/-- Number of occupied slots in an `image_slot_state` list. -/
def countOccupied : List Int → Nat
  | [] => 0
  | x :: xs => (if x = EMPTY_SLOT then 0 else 1) + countOccupied xs

/-- A resource store in which every acquisition succeeds (on the watch,
the digit bitmaps are compiled into the binary). -/
def okAll : Nat → Bool := fun _ => true

/-- The displayed-digit state of slot `p` (`image_slot_state[p]`). -/
def slotState (s : CacheState) (p : Nat) : Int :=
  s.image_slot_state.getD p EMPTY_SLOT

/-- The loaded bitmap handle of slot `p` (`images[p]`). -/
def imageAt (s : CacheState) (p : Nat) : Option Nat :=
  s.images.getD p none

/-- The bitmap layer handle of slot `p` (`image_layers[p]`). -/
def layerAt (s : CacheState) (p : Nat) : Option Nat :=
  s.image_layers.getD p none

theorem getD_set_self {α : Type} (l : List α) (i : Nat) (v d : α) (h : i < l.length) :
    (l.set i v).getD i d = v := by
  rw [List.getD_eq_getElem?_getD, List.getElem?_set_eq_of_lt v h]
  rfl

theorem getD_set_other {α : Type} (l : List α) (i j : Nat) (v d : α) (h : i ≠ j) :
    (l.set i v).getD j d = l.getD j d := by
  rw [List.getD_eq_getElem?_getD, List.getElem?_set_ne h, ← List.getD_eq_getElem?_getD]

theorem getD_ne_default_lt {α : Type} (l : List α) (i : Nat) (d : α)
    (h : l.getD i d ≠ d) : i < l.length := by
  by_contra hge
  exact h (by simp [List.getD_eq_getElem?_getD, List.getElem?_eq_none (Nat.le_of_not_lt hge)])

/-- A `load_digit_image_into_slot` call on an occupied slot (or with any
argument combination that fails a guard) changes nothing: in particular
on an occupied slot it neither releases the current asset nor acquires a
new one. -/
theorem load_into_occupied_slot_noop (ok : Nat → Bool) (p d : Int) (s : CacheState)
    (h : slotState s p.toNat ≠ EMPTY_SLOT) :
    load_digit_image_into_slot ok p d s = some s := by
  unfold load_digit_image_into_slot
  split_ifs with h1 h2 h3 h4 <;> simp_all [slotState]

/-- A `load_digit_image_into_slot` call with valid arguments on an empty
slot, when acquisition succeeds, installs the digit's bitmap and layer
and marks the slot with the digit. -/
theorem load_into_empty_slot (ok : Nat → Bool) (p d : Int) (s : CacheState)
    (hp0 : 0 ≤ p) (hp4 : p < (TOTAL_IMAGE_SLOTS : Int)) (hd0 : 0 ≤ d) (hd9 : d ≤ 9)
    (hempty : slotState s p.toNat = EMPTY_SLOT) (hok : ok d.toNat = true) :
    load_digit_image_into_slot ok p d s =
      some { s with
        images := s.images.set p.toNat (some d.toNat)
        image_layers := s.image_layers.set p.toNat (some d.toNat)
        image_slot_state := s.image_slot_state.set p.toNat d
        acquires := s.acquires + 1 } := by
  unfold load_digit_image_into_slot
  rw [if_pos ⟨hp0, hp4⟩, if_pos ⟨hd0, hd9⟩,
    if_pos (show s.image_slot_state.getD p.toNat EMPTY_SLOT = EMPTY_SLOT from hempty), if_pos hok]

/-- A `load_digit_image_into_slot` call with valid arguments on an empty
slot, when acquisition fails, dereferences the NULL handle: no successor
state exists (the crash case). -/
theorem load_acquire_failure (ok : Nat → Bool) (p d : Int) (s : CacheState)
    (hp0 : 0 ≤ p) (hp4 : p < (TOTAL_IMAGE_SLOTS : Int)) (hd0 : 0 ≤ d) (hd9 : d ≤ 9)
    (hempty : slotState s p.toNat = EMPTY_SLOT) (hok : ok d.toNat = false) :
    load_digit_image_into_slot ok p d s = none := by
  unfold load_digit_image_into_slot
  rw [if_pos ⟨hp0, hp4⟩, if_pos ⟨hd0, hd9⟩,
    if_pos (show s.image_slot_state.getD p.toNat EMPTY_SLOT = EMPTY_SLOT from hempty), hok]
  rfl

/-- `unload_digit_image_from_slot` on an occupied slot releases the
bitmap and layer and marks the slot empty. -/
theorem unload_occupied (p : Nat) (s : CacheState)
    (h : slotState s p ≠ EMPTY_SLOT) :
    unload_digit_image_from_slot p s =
      { s with
        images := s.images.set p none
        image_layers := s.image_layers.set p none
        image_slot_state := s.image_slot_state.set p EMPTY_SLOT
        releases := s.releases + 1 } := by
  unfold unload_digit_image_from_slot
  rw [if_pos (show s.image_slot_state.getD p EMPTY_SLOT ≠ EMPTY_SLOT from h)]

/-- `unload_digit_image_from_slot` on an empty slot is a no-op. -/
theorem unload_empty (p : Nat) (s : CacheState)
    (h : slotState s p = EMPTY_SLOT) :
    unload_digit_image_from_slot p s = s := by
  unfold unload_digit_image_from_slot
  rw [if_neg (by simpa [slotState] using h)]

/-- After `unload_digit_image_from_slot p` the slot `p` is empty. -/
theorem unload_slotState_self (p : Nat) (s : CacheState) :
    slotState (unload_digit_image_from_slot p s) p = EMPTY_SLOT := by
  by_cases h : slotState s p = EMPTY_SLOT
  · rw [unload_empty p s h]; exact h
  · rw [unload_occupied p s h]
    exact getD_set_self _ _ _ _ (getD_ne_default_lt _ _ _ h)

/-- `unload_digit_image_from_slot p` does not touch any other slot. -/
theorem unload_other (p q : Nat) (s : CacheState) (hq : q ≠ p) :
    slotState (unload_digit_image_from_slot p s) q = slotState s q ∧
    imageAt (unload_digit_image_from_slot p s) q = imageAt s q ∧
    layerAt (unload_digit_image_from_slot p s) q = layerAt s q := by
  by_cases h : slotState s p = EMPTY_SLOT
  · rw [unload_empty p s h]; exact ⟨rfl, rfl, rfl⟩
  · rw [unload_occupied p s h]
    exact ⟨getD_set_other _ _ _ _ _ (Ne.symm hq), getD_set_other _ _ _ _ _ (Ne.symm hq),
       getD_set_other _ _ _ _ _ (Ne.symm hq)⟩

/-- `unload_digit_image_from_slot` preserves the three list lengths and
the acquisition counter. -/
theorem unload_lengths (p : Nat) (s : CacheState) :
    (unload_digit_image_from_slot p s).image_slot_state.length = s.image_slot_state.length ∧
    (unload_digit_image_from_slot p s).images.length = s.images.length ∧
    (unload_digit_image_from_slot p s).image_layers.length = s.image_layers.length ∧
    (unload_digit_image_from_slot p s).acquires = s.acquires := by
  unfold unload_digit_image_from_slot
  split_ifs <;> simp

/-- The slot-population invariant: the three slot arrays have their
fixed length 4, and a slot's displayed-digit state is non-empty exactly
when its bitmap handle is populated and exactly when its layer handle is
populated. -/
def slotsInv (s : CacheState) : Prop :=
  s.image_slot_state.length = 4 ∧ s.images.length = 4 ∧ s.image_layers.length = 4 ∧
  ∀ i : Fin 4,
    ((slotState s i.val ≠ EMPTY_SLOT) ↔ (imageAt s i.val).isSome = true) ∧
    ((slotState s i.val ≠ EMPTY_SLOT) ↔ (layerAt s i.val).isSome = true)

theorem slotsInv_load (ok : Nat → Bool) (p d : Int) (s s' : CacheState)
    (hs : slotsInv s) (h : load_digit_image_into_slot ok p d s = some s') :
    slotsInv s' := by
  unfold load_digit_image_into_slot at h
  split_ifs at h with h1 h2 h3 h4
  · obtain ⟨hl1, hl2, hl3, hinv⟩ := hs
    obtain rfl : _ = s' := Option.some.inj h
    have hp4 : p.toNat < 4 := by
      have h1' := h1
      simp only [TOTAL_IMAGE_SLOTS] at h1'
      omega
    refine ⟨by simpa using hl1, by simpa using hl2, by simpa using hl3, fun i => ?_⟩
    by_cases hip : i.val = p.toNat
    · have hd : d ≠ EMPTY_SLOT := by
        simp only [EMPTY_SLOT]
        omega
      simp only [slotState, imageAt, layerAt, hip]
      rw [getD_set_self _ _ _ _ (hl1 ▸ hp4), getD_set_self _ _ _ _ (hl2 ▸ hp4),
        getD_set_self _ _ _ _ (hl3 ▸ hp4)]
      simp [hd]
    · have e1 := getD_set_other s.image_slot_state p.toNat i.val d EMPTY_SLOT (fun he => hip he.symm)
      have e2 := getD_set_other s.images p.toNat i.val (some d.toNat) none (fun he => hip he.symm)
      have e3 := getD_set_other s.image_layers p.toNat i.val (some d.toNat) none (fun he => hip he.symm)
      simp only [slotState, imageAt, layerAt, e1, e2, e3]
      exact hinv i
  all_goals
    obtain rfl : s = s' := Option.some.inj h
    exact hs

theorem slotsInv_unload (p : Nat) (s : CacheState) (hs : slotsInv s) :
    slotsInv (unload_digit_image_from_slot p s) := by
  by_cases h : slotState s p = EMPTY_SLOT
  · rw [unload_empty p s h]
    exact hs
  · obtain ⟨hl1, hl2, hl3, hinv⟩ := hs
    have hp : p < s.image_slot_state.length := getD_ne_default_lt _ _ _ h
    rw [unload_occupied p s h]
    refine ⟨by simpa using hl1, by simpa using hl2, by simpa using hl3, fun i => ?_⟩
    by_cases hip : i.val = p
    · simp only [slotState, imageAt, layerAt, hip]
      rw [getD_set_self _ _ _ _ hp, getD_set_self _ _ _ _ (by omega : p < s.images.length),
        getD_set_self _ _ _ _ (by omega : p < s.image_layers.length)]
      simp
    · have e1 := getD_set_other s.image_slot_state p i.val EMPTY_SLOT EMPTY_SLOT (fun he => hip he.symm)
      have e2 := getD_set_other s.images p i.val none none (fun he => hip he.symm)
      have e3 := getD_set_other s.image_layers p i.val none none (fun he => hip he.symm)
      simp only [slotState, imageAt, layerAt, e1, e2, e3]
      exact hinv i

theorem slotsInv_col (ok : Nat → Bool) ( zero_prefix : Bool) (v row col : Nat)
    (ch : Bool) (s s' : CacheState) (ev : List Ev) (hs : slotsInv s)
    (h : display_value_col ok zero_prefix v row col ch s = some (s', ev)) :
    slotsInv s' := by
  simp only [display_value_col] at h
  split_ifs at h with h1 h2
  · rcases hm : load_digit_image_into_slot ok (((row * 2 + col : Nat) : Int)) ((v % 10 : Nat) : Int)
        (unload_digit_image_from_slot (row * 2 + col) s) with _ | s2
    · rw [hm] at h
      cases h
    · rw [hm] at h
      simp only [Option.some.injEq, Prod.mk.injEq] at h
      obtain ⟨rfl, rfl⟩ := h
      exact slotsInv_load _ _ _ _ _ (slotsInv_unload _ _ hs) hm
  · simp only [Option.some.injEq, Prod.mk.injEq] at h
    obtain ⟨rfl, rfl⟩ := h
    exact slotsInv_unload _ _ hs
  · simp only [Option.some.injEq, Prod.mk.injEq] at h
    obtain ⟨rfl, rfl⟩ := h
    exact hs

theorem slotsInv_display_value (ok : Nat → Bool) ( zero_prefix : Bool) (v row : Nat)
    (ch : Bool) (s s' : CacheState) (ev : List Ev) (hs : slotsInv s)
    (h : display_value ok zero_prefix v row ch s = some (s', ev)) :
    slotsInv s' := by
  simp only [display_value] at h
  rcases h1 : display_value_col ok zero_prefix (v % 100) row 1 ch s with _ | ⟨s1, e1⟩
  · simp only [h1] at h
    exact Option.noConfusion h
  · simp only [h1] at h
    rcases h0 : display_value_col ok zero_prefix (v % 100 / 10) row 0 ch s1 with _ | ⟨s2, e2⟩
    · simp only [h0] at h
      exact Option.noConfusion h
    · simp only [h0, Option.some.injEq, Prod.mk.injEq] at h
      obtain ⟨rfl, rfl⟩ := h
      exact slotsInv_col _ _ _ _ _ _ _ _ _ (slotsInv_col _ _ _ _ _ _ _ _ _ hs h1) h0

/-- `teardown` is the four `unload_digit_image_from_slot` calls of the
`app_destroy` loop, in slot order. -/
theorem teardown_eq (s : CacheState) :
    teardown s =
      unload_digit_image_from_slot 3 (unload_digit_image_from_slot 2
        (unload_digit_image_from_slot 1 (unload_digit_image_from_slot 0 s))) := rfl

theorem slotsInv_teardown (s : CacheState) (hs : slotsInv s) : slotsInv (teardown s) := by
  rw [teardown_eq]
  exact slotsInv_unload _ _ (slotsInv_unload _ _ (slotsInv_unload _ _ (slotsInv_unload _ _ hs)))

instance (s : CacheState) : Decidable (slotsInv s) := by
  unfold slotsInv
  infer_instance

/-- C1: for every slot at every observable point — after cache
initialization and after each `load_digit_image_into_slot` call
(display_digit), `unload_digit_image_from_slot` call (clear),
`display_value` pass (render_row) and `teardown` — the slot's
displayed-digit state is non-empty if and only if the slot's bitmap
handle is populated, and if and only if its layer handle is populated:
a slot is never partially populated. -/
theorem slot_population_invariant :
    slotsInv initState ∧
    (∀ ok p d s s', slotsInv s →
        load_digit_image_into_slot ok p d s = some s' → slotsInv s') ∧
    (∀ p s, slotsInv s → slotsInv (unload_digit_image_from_slot p s)) ∧
    (∀ ok zp v row ch s s' ev, slotsInv s →
        display_value ok zp v row ch s = some (s', ev) → slotsInv s') ∧
    (∀ s, slotsInv s → slotsInv (teardown s)) :=
  ⟨by decide,
   fun ok p d s s' hs h => slotsInv_load ok p d s s' hs h,
   fun p s hs => slotsInv_unload p s hs,
   fun ok zp v row ch s s' ev hs h => slotsInv_display_value ok zp v row ch s s' ev hs h,
   fun s hs => slotsInv_teardown s hs⟩

/-- Witness for `slot_population_invariant`: the initial state satisfies
the invariant, loading digit 3 into slot 0 preserves it, and so does a
teardown. -/
theorem slot_population_invariant_witness :
    slotsInv (⟨[3, EMPTY_SLOT, EMPTY_SLOT, EMPTY_SLOT],
        [some 3, none, none, none], [some 3, none, none, none], 1, 0⟩ : CacheState) ∧
    slotsInv (teardown initState) :=
  ⟨slot_population_invariant.2.1 okAll 0 3 initState _ (by decide) (by decide),
   slot_population_invariant.2.2.2.2 initState (by decide)⟩

/-- Resource-accounting invariant: the slot array keeps its length 4 and
the number of occupied slots plus the number of releases performed so
far equals the number of successful acquisitions performed so far. -/
def resourceInv (s : CacheState) : Prop :=
  s.image_slot_state.length = 4 ∧
  countOccupied s.image_slot_state + s.releases = s.acquires

theorem countOccupied_set (l : List Int) (i : Nat) (v : Int) (h : i < l.length) :
    countOccupied (l.set i v) + (if l.getD i EMPTY_SLOT = EMPTY_SLOT then 0 else 1) =
      countOccupied l + (if v = EMPTY_SLOT then 0 else 1) := by
  induction l generalizing i with
  | nil => simp at h
  | cons a t ih =>
    cases i with
    | zero =>
      simp only [List.set, countOccupied, List.getD_cons_zero]
      split_ifs <;> omega
    | succ n =>
      have hn : n < t.length := by simpa using h
      have := ih n hn
      simp only [List.set, countOccupied, List.getD_cons_succ]
      split_ifs at this ⊢ <;> omega

theorem resourceInv_load (ok : Nat → Bool) (p d : Int) (s s' : CacheState)
    (hs : resourceInv s) (h : load_digit_image_into_slot ok p d s = some s') :
    resourceInv s' := by
  unfold load_digit_image_into_slot at h
  split_ifs at h with h1 h2 h3 h4
  · obtain ⟨hl, hc⟩ := hs
    obtain rfl : _ = s' := Option.some.inj h
    have hp4 : p.toNat < s.image_slot_state.length := by
      have h1' := h1
      simp only [TOTAL_IMAGE_SLOTS] at h1'
      omega
    have hcnt := countOccupied_set s.image_slot_state p.toNat d hp4
    rw [if_pos h3] at hcnt
    have hd : ¬(d = EMPTY_SLOT) := by
      simp only [EMPTY_SLOT]
      omega
    rw [if_neg hd] at hcnt
    exact ⟨by simpa using hl, by simp only []; omega⟩
  all_goals
    obtain rfl : s = s' := Option.some.inj h
    exact hs

theorem resourceInv_unload (p : Nat) (s : CacheState) (hs : resourceInv s) :
    resourceInv (unload_digit_image_from_slot p s) := by
  by_cases h : slotState s p = EMPTY_SLOT
  · rw [unload_empty p s h]
    exact hs
  · obtain ⟨hl, hc⟩ := hs
    have hp : p < s.image_slot_state.length := getD_ne_default_lt _ _ _ h
    have h' : s.image_slot_state.getD p EMPTY_SLOT ≠ EMPTY_SLOT := h
    have hcnt := countOccupied_set s.image_slot_state p EMPTY_SLOT hp
    rw [if_neg h', if_pos rfl] at hcnt
    rw [unload_occupied p s h]
    exact ⟨by simpa using hl, by simp only []; omega⟩

instance (s : CacheState) : Decidable (resourceInv s) := by
  unfold resourceInv
  infer_instance

theorem resourceInv_run (ok : Nat → Bool) :
    ∀ (ops : List Op) (s s' : CacheState), resourceInv s →
      run ok ops s = some s' → resourceInv s' := by
  intro ops
  induction ops with
  | nil =>
    intro s s' hs h
    simp only [run, Option.some.injEq] at h
    exact h ▸ hs
  | cons o os ih =>
    intro s s' hs h
    simp only [run] at h
    rcases ha : applyOp ok o s with _ | s1
    · simp only [ha] at h
      exact Option.noConfusion h
    · simp only [ha] at h
      have hs1 : resourceInv s1 := by
        cases o with
        | display p d =>
          simp only [applyOp] at ha
          exact resourceInv_load ok p d s s1 hs ha
        | clear p =>
          simp only [applyOp, Option.some.injEq] at ha
          exact ha ▸ resourceInv_unload p s hs
      exact ih s1 s' hs1 h

theorem teardown_slots_empty (s : CacheState) (i : Nat) (hi : i < 4) :
    slotState (teardown s) i = EMPTY_SLOT := by
  rw [teardown_eq]
  interval_cases i
  · rw [(unload_other 3 0 _ (by omega)).1, (unload_other 2 0 _ (by omega)).1,
      (unload_other 1 0 _ (by omega)).1]
    exact unload_slotState_self 0 s
  · rw [(unload_other 3 1 _ (by omega)).1, (unload_other 2 1 _ (by omega)).1]
    exact unload_slotState_self 1 _
  · rw [(unload_other 3 2 _ (by omega)).1]
    exact unload_slotState_self 2 _
  · exact unload_slotState_self 3 _

theorem length_four {α : Type} (l : List α) (h : l.length = 4) :
    ∃ a b c d : α, l = [a, b, c, d] := by
  rcases l with _ | ⟨a, _ | ⟨b, _ | ⟨c, _ | ⟨d, _ | ⟨e, t⟩⟩⟩⟩⟩
  · simp at h
  · simp at h
  · simp at h
  · simp at h
  · exact ⟨a, b, c, d, rfl⟩
  · simp only [List.length_cons] at h
    omega

theorem countOccupied_eq_zero (l : List Int) (hl : l.length = 4)
    (h : ∀ i, i < 4 → l.getD i EMPTY_SLOT = EMPTY_SLOT) : countOccupied l = 0 := by
  obtain ⟨a, b, c, d, rfl⟩ := length_four l hl
  have h0 := h 0 (by omega)
  have h1 := h 1 (by omega)
  have h2 := h 2 (by omega)
  have h3 := h 3 (by omega)
  simp only [List.getD_cons_zero, List.getD_cons_succ] at h0 h1 h2 h3
  simp [countOccupied, h0, h1, h2, h3]

/-- C9: `teardown` calls clear (`unload_digit_image_from_slot`) on every
one of the 4 positions, and after any sequence of display_digit/clear
operations run from the initial state, it leaves zero occupied slots
with the lifetime total of release calls equal to the lifetime total of
successful acquire calls — no handle leaked, none released twice. -/
theorem teardown_releases_all_acquired :
    (∀ s, teardown s =
        unload_digit_image_from_slot 3 (unload_digit_image_from_slot 2
          (unload_digit_image_from_slot 1 (unload_digit_image_from_slot 0 s)))) ∧
    (∀ ok ops s', run ok ops initState = some s' →
        countOccupied (teardown s').image_slot_state = 0 ∧
        (teardown s').releases = (teardown s').acquires) := by
  refine ⟨teardown_eq, fun ok ops s' h => ?_⟩
  have hs' : resourceInv s' := resourceInv_run ok ops initState s' (by decide) h
  have ht : resourceInv (teardown s') := by
    rw [teardown_eq]
    exact resourceInv_unload _ _ (resourceInv_unload _ _
      (resourceInv_unload _ _ (resourceInv_unload _ _ hs')))
  have hcnt : countOccupied (teardown s').image_slot_state = 0 :=
    countOccupied_eq_zero _ ht.1 (fun i hi => teardown_slots_empty s' i hi)
  have hbal := ht.2
  exact ⟨hcnt, by omega⟩

/-- Witness for `teardown_releases_all_acquired`: after loading digit 3
into slot 0, clearing slot 0 and loading digit 7 into slot 2, teardown
leaves no occupied slot and the release count equals the acquire
count. -/
theorem teardown_releases_all_acquired_witness :
    countOccupied (teardown (⟨[EMPTY_SLOT, EMPTY_SLOT, 7, EMPTY_SLOT],
        [none, none, some 7, none], [none, none, some 7, none], 2, 1⟩ : CacheState)).image_slot_state = 0 ∧
    (teardown (⟨[EMPTY_SLOT, EMPTY_SLOT, 7, EMPTY_SLOT],
        [none, none, some 7, none], [none, none, some 7, none], 2, 1⟩ : CacheState)).releases =
      (teardown (⟨[EMPTY_SLOT, EMPTY_SLOT, 7, EMPTY_SLOT],
        [none, none, some 7, none], [none, none, some 7, none], 2, 1⟩ : CacheState)).acquires :=
  teardown_releases_all_acquired.2 okAll [Op.display 0 3, Op.clear 0, Op.display 2 7] _ (by decide)

/-- C7: `get_display_hour` is a total pure function: for every hour in
0..23, in 24-hour style it returns the hour unchanged, and otherwise it
returns `hour % 12` with a result of 0 mapped to 12, so the 12-hour
result always lies in 1..12; `get_display_hour false 0 = 12` and
`get_display_hour false 13 = 1`. -/
theorem get_display_hour_policy :
    (∀ hour : Nat, hour < 24 →
        get_display_hour true hour = hour ∧
        get_display_hour false hour = (if hour % 12 = 0 then 12 else hour % 12) ∧
        1 ≤ get_display_hour false hour ∧ get_display_hour false hour ≤ 12) ∧
    get_display_hour false 0 = 12 ∧ get_display_hour false 13 = 1 := by
  decide

/-- Witness for `get_display_hour_policy` at hour 14. -/
theorem get_display_hour_policy_witness :
    get_display_hour true 14 = 14 ∧
    get_display_hour false 14 = (if 14 % 12 = 0 then 12 else 14 % 12) ∧
    1 ≤ get_display_hour false 14 ∧ get_display_hour false 14 ≤ 12 :=
  get_display_hour_policy.1 14 (by decide)

/-- C10: `display_value` is total over every unsigned input value — it
first reduces its value argument modulo 100, so any value renders the
digits of `value % 100`; in particular value 123 renders as 23. -/
theorem display_value_total_mod_hundred :
    (∀ ok zp v row ch s,
        display_value ok zp v row ch s = display_value ok zp (v % 100) row ch s) ∧
    display_value okAll true 123 1 true initState =
      some ((⟨[EMPTY_SLOT, EMPTY_SLOT, 2, 3], [none, none, some 2, some 3],
          [none, none, some 2, some 3], 2, 0⟩ : CacheState),
        [Ev.clearCall 3, Ev.displayCall 3 3, Ev.clearCall 2, Ev.displayCall 2 2]) := by
  constructor
  · intro ok zp v row ch s
    simp only [display_value, Nat.mod_mod_of_dvd v dvd_rfl]
  · decide

/-- C4 (documenting the missing error signalling): out-of-range slot
positions and out-of-range digit values make `load_digit_image_into_slot`
fall through its guards and return silently with no state change and no
error indication of any kind — the function has no error channel, and
the source marks the omission with a `TODO: Signal these error's`
comment — instead of failing with `InvalidPosition` / `InvalidDigit` as
the specification requires. -/
theorem invalid_position_digit_silently_ignored :
    load_digit_image_into_slot okAll 4 5 initState = some initState ∧
    load_digit_image_into_slot okAll (-1) 5 initState = some initState ∧
    load_digit_image_into_slot okAll 0 12 initState = some initState ∧
    load_digit_image_into_slot okAll 0 (-3) initState = some initState := by
  decide

/-- C2 counterexample: with a store that cannot produce the bitmap for
digit 5, displaying digit 5 in empty slot 0 yields no successor state at
all — the code dereferences the NULL bitmap handle instead of leaving
the slot empty and surfacing an AssetUnavailable condition — and a
`display_value` render pass whose first processed column needs digit 5
aborts, so the other column is not updated. -/
theorem asset_failure_not_handled_counterexample :
    load_digit_image_into_slot (fun d => !(d == 5)) 0 5 initState = none ∧
    display_value (fun d => !(d == 5)) true 55 0 false initState = none := by
  decide

/-- C2 amended: when acquisition fails for a valid digit destined for a
valid empty slot, `load_digit_image_into_slot` crashes (returns no
successor state, modelling the unchecked NULL dereference); no
AssetUnavailable condition is surfaced, and a `display_value` pass whose
remaining column crashes aborts instead of completing. -/
theorem asset_failure_crashes :
    (∀ ok p d s, 0 ≤ p → p < (TOTAL_IMAGE_SLOTS : Int) → 0 ≤ d → d ≤ 9 →
        slotState s p.toNat = EMPTY_SLOT → ok d.toNat = false →
        load_digit_image_into_slot ok p d s = none) ∧
    (∀ ok zp v row ch s s1 e1,
        display_value_col ok zp (v % 100) row 1 ch s = some (s1, e1) →
        display_value_col ok zp (v % 100 / 10) row 0 ch s1 = none →
        display_value ok zp v row ch s = none) := by
  constructor
  · intro ok p d s hp0 hp4 hd0 hd9 hempty hok
    exact load_acquire_failure ok p d s hp0 hp4 hd0 hd9 hempty hok
  · intro ok zp v row ch s s1 e1 h1 h0
    simp only [display_value, h1, h0]

/-- Witness for `asset_failure_crashes`: a store failing on digit 5
crashes a display of digit 5 into empty slot 3. -/
theorem asset_failure_crashes_witness :
    load_digit_image_into_slot (fun d => !(d == 5)) 3 5 initState = none :=
  asset_failure_crashes.1 (fun d => !(d == 5)) 3 5 initState (by decide) (by decide)
    (by decide) (by decide) (by decide) (by decide)

/-- C3 counterexample: slot 0 occupied by digit 3 (reached by one
display_digit call from the initial state); `display_digit(0, 5)` is
then a complete no-op — the old asset is not released, no new asset is
acquired, and afterwards the slot still shows 3, not 5. -/
theorem display_digit_no_replacement_counterexample :
    load_digit_image_into_slot okAll 0 3 initState =
      some (⟨[3, EMPTY_SLOT, EMPTY_SLOT, EMPTY_SLOT], [some 3, none, none, none],
          [some 3, none, none, none], 1, 0⟩ : CacheState) ∧
    load_digit_image_into_slot okAll 0 5
        (⟨[3, EMPTY_SLOT, EMPTY_SLOT, EMPTY_SLOT], [some 3, none, none, none],
          [some 3, none, none, none], 1, 0⟩ : CacheState) =
      some (⟨[3, EMPTY_SLOT, EMPTY_SLOT, EMPTY_SLOT], [some 3, none, none, none],
          [some 3, none, none, none], 1, 0⟩ : CacheState) ∧
    slotState (⟨[3, EMPTY_SLOT, EMPTY_SLOT, EMPTY_SLOT], [some 3, none, none, none],
        [some 3, none, none, none], 1, 0⟩ : CacheState) 0 = 3 := by
  decide

/-- C3 amended: `load_digit_image_into_slot` (display_digit) on an
occupied slot is a no-op even when the requested digit differs, with no
release and no acquisition; the release-then-install replacement is what
the renderer's clear+display pair performs: clearing the occupied slot
and then displaying the new digit releases exactly the old asset,
acquires the new one, and leaves the slot showing the new digit. -/
theorem display_digit_replacement_needs_clear :
    (∀ ok p d s, slotState s p.toNat ≠ EMPTY_SLOT →
        load_digit_image_into_slot ok p d s = some s) ∧
    (∀ ok p d s, s.image_slot_state.length = 4 →
        0 ≤ p → p < (TOTAL_IMAGE_SLOTS : Int) → 0 ≤ d → d ≤ 9 → ok d.toNat = true →
        slotState s p.toNat ≠ EMPTY_SLOT →
        ∃ s', load_digit_image_into_slot ok p d
            (unload_digit_image_from_slot p.toNat s) = some s' ∧
          slotState s' p.toNat = d ∧
          s'.releases = s.releases + 1 ∧ s'.acquires = s.acquires + 1) := by
  refine ⟨fun ok p d s h => load_into_occupied_slot_noop ok p d s h,
    fun ok p d s hlen hp0 hp4 hd0 hd9 hok hocc => ?_⟩
  have hp4' : p.toNat < 4 := by
    simp only [TOTAL_IMAGE_SLOTS] at hp4
    omega
  have hu := unload_occupied p.toNat s hocc
  have h1len : (unload_digit_image_from_slot p.toNat s).image_slot_state.length = 4 := by
    rw [hu]
    simpa using hlen
  have hemp : slotState (unload_digit_image_from_slot p.toNat s) p.toNat = EMPTY_SLOT :=
    unload_slotState_self p.toNat s
  have hload := load_into_empty_slot ok p d _ hp0 hp4 hd0 hd9 hemp hok
  refine ⟨_, hload, ?_, ?_, ?_⟩
  · simp only [slotState]
    rw [getD_set_self _ _ _ _ (by omega :
      p.toNat < (unload_digit_image_from_slot p.toNat s).image_slot_state.length)]
  · simp [hu]
  · simp [hu]

/-- Witness for `display_digit_replacement_needs_clear`: clearing slot 0
(occupied by 3) then displaying 5 installs 5 with one release and one
acquisition. -/
theorem display_digit_replacement_needs_clear_witness :
    ∃ s', load_digit_image_into_slot okAll 0 5
        (unload_digit_image_from_slot (0 : Int).toNat
          (⟨[3, EMPTY_SLOT, EMPTY_SLOT, EMPTY_SLOT], [some 3, none, none, none],
            [some 3, none, none, none], 1, 0⟩ : CacheState)) = some s' ∧
      slotState s' (0 : Int).toNat = 5 ∧ s'.releases = 0 + 1 ∧ s'.acquires = 1 + 1 :=
  display_digit_replacement_needs_clear.2 okAll 0 5 _ (by decide) (by decide) (by decide)
    (by decide) (by decide) (by decide) (by decide)

/-- C8: for every valid position and digit, starting from a state in
which the slot is empty, calling display_digit twice in a row with the
same digit performs exactly one acquisition in total and no release:
the first call acquires one asset and installs it, and the second call
is a no-op that returns the state unchanged (counters included). -/
theorem display_digit_idempotent :
    ∀ ok p d s, s.image_slot_state.length = 4 →
      0 ≤ p → p < (TOTAL_IMAGE_SLOTS : Int) → 0 ≤ d → d ≤ 9 → ok d.toNat = true →
      slotState s p.toNat = EMPTY_SLOT →
      ∃ s1, load_digit_image_into_slot ok p d s = some s1 ∧
        s1.acquires = s.acquires + 1 ∧ s1.releases = s.releases ∧
        load_digit_image_into_slot ok p d s1 = some s1 := by
  intro ok p d s hlen hp0 hp4 hd0 hd9 hok hemp
  have hp4' : p.toNat < 4 := by
    simp only [TOTAL_IMAGE_SLOTS] at hp4
    omega
  have hload := load_into_empty_slot ok p d s hp0 hp4 hd0 hd9 hemp hok
  refine ⟨_, hload, rfl, rfl, ?_⟩
  apply load_into_occupied_slot_noop
  simp only [slotState]
  rw [getD_set_self _ _ _ _ (by omega : p.toNat < s.image_slot_state.length)]
  simp only [EMPTY_SLOT]
  omega

/-- Witness for `display_digit_idempotent`: displaying digit 4 in empty
slot 1 twice acquires once, releases nothing, and the second call is a
no-op. -/
theorem display_digit_idempotent_witness :
    ∃ s1, load_digit_image_into_slot okAll 1 4 initState = some s1 ∧
      s1.acquires = initState.acquires + 1 ∧ s1.releases = initState.releases ∧
      load_digit_image_into_slot okAll 1 4 s1 = some s1 :=
  display_digit_idempotent okAll 1 4 initState (by decide) (by decide) (by decide)
    (by decide) (by decide) (by decide) (by decide)

/-- Column skip: with `changed = false` and the column's digit equal to
the slot's current state, the column loop body does nothing. -/
theorem col_skip (ok : Nat → Bool) ( zero_prefix : Bool) (v row col : Nat)
    (changed : Bool) (s : CacheState) (hch : changed = false)
    (h : ((v % 10 : Nat) : Int) = slotState s (row * 2 + col)) :
    display_value_col ok zero_prefix v row col changed s = some (s, []) := by
  have hncond : ¬(changed = true ∨
      ¬((v % 10 : Nat) : Int) = s.image_slot_state.getD (row * 2 + col) EMPTY_SLOT) := by
    rintro (hc | hne)
    · rw [hch] at hc
      exact Bool.false_ne_true hc
    · exact hne h
  simp only [display_value_col]
  rw [if_neg hncond]

/-- Column blanking: when the first-row leading column (slot 0) is
processed with digit 0 and the zero-prefix option off, the loop body
clears the slot and does not load. -/
theorem col_blank (ok : Nat → Bool) (v : Nat) (changed : Bool) (s : CacheState)
    (hda : changed = true ∨ ((v % 10 : Nat) : Int) ≠ slotState s 0)
    (hd0 : v % 10 = 0) :
    display_value_col ok false v 0 0 changed s =
      some (unload_digit_image_from_slot 0 s, [Ev.clearCall 0]) := by
  have hcond : (changed = true ∨
      ¬((v % 10 : Nat) : Int) = s.image_slot_state.getD (0 * 2 + 0) EMPTY_SLOT) := by
    rcases hda with h | h
    · exact Or.inl h
    · exact Or.inr h
  have hnguard : ¬(false = true ∨ ¬(v % 10 = 0) ∨ ¬(0 * 2 + 0 = 0)) := by
    rintro (hg | hg | hg)
    · exact Bool.false_ne_true hg
    · exact hg hd0
    · exact hg rfl
  simp only [display_value_col]
  rw [if_pos hcond, if_neg hnguard]

/-- Column load: when the column is processed (forced or its digit
differs) and the blanking condition does not apply, the loop body clears
the slot and installs the digit: the slot arrays are updated at the
column's slot, one acquisition is performed, and one release happens
exactly if the slot was occupied. -/
theorem col_load (ok : Nat → Bool) ( zero_prefix : Bool) (v row col : Nat)
    (changed : Bool) (s : CacheState)
    (hslot : row * 2 + col < 4)
    (hda : changed = true ∨ ((v % 10 : Nat) : Int) ≠ slotState s (row * 2 + col))
    (hg : zero_prefix = true ∨ v % 10 ≠ 0 ∨ row * 2 + col ≠ 0)
    (hok : ok (v % 10) = true) :
    display_value_col ok zero_prefix v row col changed s =
      some ({ s with
          image_slot_state := s.image_slot_state.set (row * 2 + col) ((v % 10 : Nat) : Int)
          images := s.images.set (row * 2 + col) (some (v % 10))
          image_layers := s.image_layers.set (row * 2 + col) (some (v % 10))
          acquires := s.acquires + 1
          releases := s.releases +
            (if slotState s (row * 2 + col) = EMPTY_SLOT then 0 else 1) },
        [Ev.clearCall (row * 2 + col), Ev.displayCall (row * 2 + col) (v % 10)]) := by
  have hcond : (changed = true ∨
      ¬((v % 10 : Nat) : Int) = s.image_slot_state.getD (row * 2 + col) EMPTY_SLOT) := by
    rcases hda with h | h
    · exact Or.inl h
    · exact Or.inr h
  have hguard : ( zero_prefix = true ∨ ¬(v % 10 = 0) ∨ ¬(row * 2 + col = 0)) := hg
  simp only [display_value_col]
  rw [if_pos hcond, if_pos hguard]
  have hemp : slotState (unload_digit_image_from_slot (row * 2 + col) s) (row * 2 + col) =
      EMPTY_SLOT := unload_slotState_self (row * 2 + col) s
  have hp0 : (0 : Int) ≤ ((row * 2 + col : Nat) : Int) := Int.natCast_nonneg _
  have hp4 : ((row * 2 + col : Nat) : Int) < (TOTAL_IMAGE_SLOTS : Int) := by
    simp only [TOTAL_IMAGE_SLOTS]
    exact_mod_cast hslot
  have hd0 : (0 : Int) ≤ ((v % 10 : Nat) : Int) := Int.natCast_nonneg _
  have hd9 : ((v % 10 : Nat) : Int) ≤ 9 := by
    have : v % 10 ≤ 9 := by omega
    exact_mod_cast this
  have hok' : ok ((v % 10 : Nat) : Int).toNat = true := by
    rw [Int.toNat_natCast]
    exact hok
  have hload := load_into_empty_slot ok ((row * 2 + col : Nat) : Int) ((v % 10 : Nat) : Int)
    (unload_digit_image_from_slot (row * 2 + col) s) hp0 hp4 hd0 hd9 hemp hok'
  rw [Int.toNat_natCast, Int.toNat_natCast] at hload
  simp only [hload, Option.some.injEq, Prod.mk.injEq]
  refine ⟨?_, trivial⟩
  by_cases hocc : slotState s (row * 2 + col) = EMPTY_SLOT
  · rw [unload_empty _ s hocc, if_pos hocc]
    simp
  · rw [unload_occupied _ s hocc, if_neg hocc]
    simp [List.set_set]

/-- Assembling a `display_value` pass from its two column steps. -/
theorem dv_eq (ok : Nat → Bool) ( zero_prefix : Bool) (v row : Nat) (changed : Bool)
    (s s1 s2 : CacheState) (e1 e2 : List Ev)
    (h1 : display_value_col ok zero_prefix (v % 100) row 1 changed s = some (s1, e1))
    (h0 : display_value_col ok zero_prefix (v % 100 / 10) row 0 changed s1 = some (s2, e2)) :
    display_value ok zero_prefix v row changed s = some (s2, e1 ++ e2) := by
  simp only [display_value, h1, h0]

/-- The slot-cache calls `display_value` makes for one column when
`changed` is false, as stated by the amended change-detection claim:
none when the digit already matches, clear plus display when it differs,
and clear only in the slot-0 leading-zero blanking case. -/
def expectedColEvents ( zero_prefix : Bool) (slot digit : Nat) (cur : Int) : List Ev :=
  if (digit : Int) = cur then []
  else if zero_prefix = true ∨ digit ≠ 0 ∨ slot ≠ 0 then
    [Ev.clearCall slot, Ev.displayCall slot digit]
  else [Ev.clearCall slot]

/-- C5 amended: with `changed = false` (no forced refresh), a
`display_value` pass over a row performs, per column, no slot-cache call
at all when the column's digit equals the slot's current state (the
column is left completely untouched — its state and both handles are
unchanged; when both columns match the whole state is returned
unchanged), and exactly one clear followed by one display_digit when the
digit differs — except in the leading-zero blanking case (slot 0, digit
0, zero-prefix off), where the differing column is cleared only. -/
theorem change_detection_row_update :
    ∀ (zp : Bool) (v row : Nat) (s : CacheState), row < 2 →
      ((display_value okAll zp v row false s).map (fun r => r.2) =
        some (expectedColEvents zp (row * 2 + 1) (v % 100 % 10) (slotState s (row * 2 + 1)) ++
          expectedColEvents zp (row * 2 + 0) (v % 100 / 10) (slotState s (row * 2 + 0)))) ∧
      (((v % 100 % 10 : Nat) : Int) = slotState s (row * 2 + 1) →
        (display_value okAll zp v row false s).map
            (fun r => (slotState r.1 (row * 2 + 1), imageAt r.1 (row * 2 + 1),
              layerAt r.1 (row * 2 + 1))) =
          some (slotState s (row * 2 + 1), imageAt s (row * 2 + 1), layerAt s (row * 2 + 1))) ∧
      (((v % 100 / 10 : Nat) : Int) = slotState s (row * 2 + 0) →
        (display_value okAll zp v row false s).map
            (fun r => (slotState r.1 (row * 2 + 0), imageAt r.1 (row * 2 + 0),
              layerAt r.1 (row * 2 + 0))) =
          some (slotState s (row * 2 + 0), imageAt s (row * 2 + 0), layerAt s (row * 2 + 0))) ∧
      (((v % 100 % 10 : Nat) : Int) = slotState s (row * 2 + 1) ∧
          ((v % 100 / 10 : Nat) : Int) = slotState s (row * 2 + 0) →
        display_value okAll zp v row false s = some (s, [])) := by
  intro zp v row s hrow
  have hb : (v % 100 / 10) % 10 = v % 100 / 10 := by omega
  have hq01 : row * 2 + 0 ≠ row * 2 + 1 := by omega
  have hq10 : row * 2 + 1 ≠ row * 2 + 0 := by omega
  by_cases hA : ((v % 100 % 10 : Nat) : Int) = slotState s (row * 2 + 1)
  · -- column 1 matches: skipped
    have hc1 : display_value_col okAll zp (v % 100) row 1 false s = some (s, []) :=
      col_skip okAll zp (v % 100) row 1 false s rfl hA
    have hE1 : expectedColEvents zp (row * 2 + 1) (v % 100 % 10) (slotState s (row * 2 + 1)) = [] := by
      rw [expectedColEvents, if_pos hA]
    by_cases hB : ((v % 100 / 10 : Nat) : Int) = slotState s (row * 2 + 0)
    · -- column 0 matches too: skipped
      have hc0 : display_value_col okAll zp (v % 100 / 10) row 0 false s = some (s, []) :=
        col_skip okAll zp (v % 100 / 10) row 0 false s rfl (by rw [hb]; exact hB)
      have hdv := dv_eq okAll zp v row false s s s [] [] hc1 hc0
      have hE0 : expectedColEvents zp (row * 2 + 0) (v % 100 / 10) (slotState s (row * 2 + 0)) = [] := by
        rw [expectedColEvents, if_pos hB]
      refine ⟨?_, fun _ => ?_, fun _ => ?_, fun _ => ?_⟩
      · rw [hdv, hE1, hE0]
        rfl
      · rw [hdv]
        rfl
      · rw [hdv]
        rfl
      · rw [hdv]
        rfl
    · -- column 0 differs
      have hda0 : false = true ∨ (((v % 100 / 10) % 10 : Nat) : Int) ≠ slotState s (row * 2 + 0) := by
        rw [hb]
        exact Or.inr hB
      by_cases hg0 : zp = true ∨ v % 100 / 10 ≠ 0 ∨ row * 2 + 0 ≠ 0
      · -- update path: clear then display
        have hg0' : zp = true ∨ (v % 100 / 10) % 10 ≠ 0 ∨ row * 2 + 0 ≠ 0 := by
          rw [hb]
          exact hg0
        have hc0 := col_load okAll zp (v % 100 / 10) row 0 false s (by omega) hda0 hg0' rfl
        have hdv := dv_eq okAll zp v row false s s _ [] _ hc1 hc0
        have hE0 : expectedColEvents zp (row * 2 + 0) (v % 100 / 10) (slotState s (row * 2 + 0)) =
            [Ev.clearCall (row * 2 + 0), Ev.displayCall (row * 2 + 0) (v % 100 / 10)] := by
          rw [expectedColEvents, if_neg hB, if_pos hg0]
        refine ⟨?_, fun _ => ?_, fun hB' => absurd hB' hB, fun hBoth => absurd hBoth.2 hB⟩
        · rw [hdv, hE1, hE0, hb]
          rfl
        · rw [hdv]
          simp only [Option.map_some', Option.some.injEq, Prod.mk.injEq, slotState,
            imageAt, layerAt]
          exact ⟨getD_set_other _ _ _ _ _ hq01, getD_set_other _ _ _ _ _ hq01,
            getD_set_other _ _ _ _ _ hq01⟩
      · -- blanking path: slot 0, digit 0, zero-prefix off
        push_neg at hg0
        obtain ⟨hzp, hdig, hq0⟩ := hg0
        have hrow0 : row = 0 := by omega
        subst hrow0
        have hzpf : zp = false := by simpa using hzp
        subst hzpf
        have hc0 : display_value_col okAll false (v % 100 / 10) 0 0 false s =
            some (unload_digit_image_from_slot 0 s, [Ev.clearCall 0]) :=
          col_blank okAll (v % 100 / 10) false s
            (Or.inr (by rw [hb]; exact fun he => hB he)) (by rw [hb]; exact hdig)
        have hdv := dv_eq okAll false v 0 false s s _ [] _ hc1 hc0
        have hE0 : expectedColEvents false (0 * 2 + 0) (v % 100 / 10) (slotState s (0 * 2 + 0)) =
            [Ev.clearCall (0 * 2 + 0)] := by
          rw [expectedColEvents, if_neg hB, if_neg]
          rintro (hg | hg | hg)
          · exact Bool.false_ne_true hg
          · exact hg hdig
          · exact hg rfl
        refine ⟨?_, fun _ => ?_, fun hB' => absurd hB' hB, fun hBoth => absurd hBoth.2 hB⟩
        · rw [hdv, hE1, hE0]
          rfl
        · rw [hdv]
          simp only [Option.map_some', Option.some.injEq]
          have h1 := unload_other 0 (0 * 2 + 1) s (by omega)
          exact Prod.ext h1.1 (Prod.ext h1.2.1 h1.2.2)
  · -- column 1 differs: always clear then display (slot index is never 0)
    have hda1 : false = true ∨ (((v % 100) % 10 : Nat) : Int) ≠ slotState s (row * 2 + 1) :=
      Or.inr hA
    have hg1 : zp = true ∨ (v % 100) % 10 ≠ 0 ∨ row * 2 + 1 ≠ 0 :=
      Or.inr (Or.inr (by omega))
    have hc1 := col_load okAll zp (v % 100) row 1 false s (by omega) hda1 hg1 rfl
    have hE1 : expectedColEvents zp (row * 2 + 1) (v % 100 % 10) (slotState s (row * 2 + 1)) =
        [Ev.clearCall (row * 2 + 1), Ev.displayCall (row * 2 + 1) (v % 100 % 10)] := by
      rw [expectedColEvents, if_neg hA,
        if_pos (show zp = true ∨ v % 100 % 10 ≠ 0 ∨ row * 2 + 1 ≠ 0 from
          Or.inr (Or.inr (by omega)))]
    have hpre : slotState ({ s with
        image_slot_state := s.image_slot_state.set (row * 2 + 1) ((v % 100 % 10 : Nat) : Int)
        images := s.images.set (row * 2 + 1) (some (v % 100 % 10))
        image_layers := s.image_layers.set (row * 2 + 1) (some (v % 100 % 10))
        acquires := s.acquires + 1
        releases := s.releases +
          (if slotState s (row * 2 + 1) = EMPTY_SLOT then 0 else 1) } : CacheState)
        (row * 2 + 0) = slotState s (row * 2 + 0) := by
      simp only [slotState]
      exact getD_set_other _ _ _ _ _ hq10
    by_cases hB : ((v % 100 / 10 : Nat) : Int) = slotState s (row * 2 + 0)
    · -- column 0 matches: skipped
      have hc0 := col_skip okAll zp (v % 100 / 10) row 0 false _ rfl
        (by rw [hb, hpre]; exact hB)
      have hdv := dv_eq okAll zp v row false s _ _ _ _ hc1 hc0
      have hE0 : expectedColEvents zp (row * 2 + 0) (v % 100 / 10) (slotState s (row * 2 + 0)) = [] := by
        rw [expectedColEvents, if_pos hB]
      refine ⟨?_, fun hA' => absurd hA' hA, fun _ => ?_, fun hBoth => absurd hBoth.1 hA⟩
      · rw [hdv, hE1, hE0]
        rfl
      · rw [hdv]
        simp only [Option.map_some', Option.some.injEq, Prod.mk.injEq, slotState,
          imageAt, layerAt]
        exact ⟨getD_set_other _ _ _ _ _ hq10, getD_set_other _ _ _ _ _ hq10,
          getD_set_other _ _ _ _ _ hq10⟩
    · -- column 0 differs
      have hda0 : false = true ∨ (((v % 100 / 10) % 10 : Nat) : Int) ≠ slotState ({ s with
          image_slot_state := s.image_slot_state.set (row * 2 + 1) ((v % 100 % 10 : Nat) : Int)
          images := s.images.set (row * 2 + 1) (some (v % 100 % 10))
          image_layers := s.image_layers.set (row * 2 + 1) (some (v % 100 % 10))
          acquires := s.acquires + 1
          releases := s.releases +
            (if slotState s (row * 2 + 1) = EMPTY_SLOT then 0 else 1) } : CacheState)
          (row * 2 + 0) := by
        rw [hb, hpre]
        exact Or.inr hB
      by_cases hg0 : zp = true ∨ v % 100 / 10 ≠ 0 ∨ row * 2 + 0 ≠ 0
      · -- update path for column 0 as well
        have hg0' : zp = true ∨ (v % 100 / 10) % 10 ≠ 0 ∨ row * 2 + 0 ≠ 0 := by
          rw [hb]
          exact hg0
        have hc0 := col_load okAll zp (v % 100 / 10) row 0 false _ (by omega) hda0 hg0' rfl
        have hdv := dv_eq okAll zp v row false s _ _ _ _ hc1 hc0
        have hE0 : expectedColEvents zp (row * 2 + 0) (v % 100 / 10) (slotState s (row * 2 + 0)) =
            [Ev.clearCall (row * 2 + 0), Ev.displayCall (row * 2 + 0) (v % 100 / 10)] := by
          rw [expectedColEvents, if_neg hB, if_pos hg0]
        refine ⟨?_, fun hA' => absurd hA' hA, fun hB' => absurd hB' hB,
          fun hBoth => absurd hBoth.1 hA⟩
        rw [hdv, hE1, hE0, hb]
        rfl
      · -- blanking path for column 0
        push_neg at hg0
        obtain ⟨hzp, hdig, hq0⟩ := hg0
        have hrow0 : row = 0 := by omega
        subst hrow0
        have hzpf : zp = false := by simpa using hzp
        subst hzpf
        have hc0 := col_blank okAll (v % 100 / 10) false _
          (Or.inr (by rw [hb]; intro he; exact hB (he.trans hpre))) (by rw [hb]; exact hdig)
        have hdv := dv_eq okAll false v 0 false s _ _ _ _ hc1 hc0
        have hE0 : expectedColEvents false (0 * 2 + 0) (v % 100 / 10) (slotState s (0 * 2 + 0)) =
            [Ev.clearCall (0 * 2 + 0)] := by
          rw [expectedColEvents, if_neg hB, if_neg]
          rintro (hg | hg | hg)
          · exact Bool.false_ne_true hg
          · exact hg hdig
          · exact hg rfl
        refine ⟨?_, fun hA' => absurd hA' hA, fun hB' => absurd hB' hB,
          fun hBoth => absurd hBoth.1 hA⟩
        rw [hdv, hE1, hE0]
        rfl

/-- Witness for `change_detection_row_update`: the claim's example —
value 59 rendered into row 1 with no forced refresh, slots 2 and 3
previously showing 0 — updates each column via exactly one clear
followed by one display. -/
theorem change_detection_row_update_witness :
    (display_value okAll false 59 1 false
        (⟨[EMPTY_SLOT, EMPTY_SLOT, 0, 0], [none, none, some 0, some 0],
          [none, none, some 0, some 0], 2, 0⟩ : CacheState)).map (fun r => r.2) =
      some (expectedColEvents false (1 * 2 + 1) (59 % 100 % 10)
          (slotState (⟨[EMPTY_SLOT, EMPTY_SLOT, 0, 0], [none, none, some 0, some 0],
            [none, none, some 0, some 0], 2, 0⟩ : CacheState) (1 * 2 + 1)) ++
        expectedColEvents false (1 * 2 + 0) (59 % 100 / 10)
          (slotState (⟨[EMPTY_SLOT, EMPTY_SLOT, 0, 0], [none, none, some 0, some 0],
            [none, none, some 0, some 0], 2, 0⟩ : CacheState) (1 * 2 + 0))) :=
  (change_detection_row_update false 59 1
    (⟨[EMPTY_SLOT, EMPTY_SLOT, 0, 0], [none, none, some 0, some 0],
      [none, none, some 0, some 0], 2, 0⟩ : CacheState) (by decide)).1

/-- C5 counterexample: with zero-prefix off and slot 0 showing 3, a
non-forced `display_value` of value 5 into row 0 processes the leading
column (its digit 0 differs from 3) with one clear and NO display call
— the column is cleared only, refuting "every column whose digit
differs is updated via exactly one clear followed by one
display_digit". -/
theorem change_detection_counterexample :
    display_value okAll false 5 0 false
        (⟨[3, 5, EMPTY_SLOT, EMPTY_SLOT], [some 3, some 5, none, none],
          [some 3, some 5, none, none], 2, 0⟩ : CacheState) =
      some ((⟨[EMPTY_SLOT, 5, EMPTY_SLOT, EMPTY_SLOT], [none, some 5, none, none],
          [none, some 5, none, none], 2, 1⟩ : CacheState),
        [Ev.clearCall 0]) := by
  decide

/-- C6 counterexample: slot 0 currently shows 0 while zero-prefix is
off; a non-forced `display_value` of value 5 into row 0 destines digit 0
for slot 0, yet the change-detection guard skips the column entirely, so
the slot is NOT cleared and is left displaying the digit 0 — refuting
"when the digit destined for slot 0 is 0 and zero_prefix is false the
slot is cleared and left empty instead of displaying the digit". -/
theorem leading_zero_blanking_counterexample :
    display_value okAll false 5 0 false
        (⟨[0, 5, EMPTY_SLOT, EMPTY_SLOT], [some 0, some 5, none, none],
          [some 0, some 5, none, none], 2, 0⟩ : CacheState) =
      some ((⟨[0, 5, EMPTY_SLOT, EMPTY_SLOT], [some 0, some 5, none, none],
          [some 0, some 5, none, none], 2, 0⟩ : CacheState), []) ∧
    slotState (⟨[0, 5, EMPTY_SLOT, EMPTY_SLOT], [some 0, some 5, none, none],
        [some 0, some 5, none, none], 2, 0⟩ : CacheState) 0 = 0 := by
  decide

/-- Full characterization of the final digit state of the column a
`display_value_col` step targets: unchanged when the column is skipped,
the new digit when it is processed and loaded, `EMPTY_SLOT` when it is
processed and blanked; other slots are untouched and the slot-array
length is preserved. -/
theorem col_final_self (zp : Bool) (v row col : Nat) (ch : Bool) (s : CacheState)
    (hlen : s.image_slot_state.length = 4) (hslot : row * 2 + col < 4) :
    ∃ s' ev, display_value_col okAll zp v row col ch s = some (s', ev) ∧
      slotState s' (row * 2 + col) =
        (if ch = true ∨ ((v % 10 : Nat) : Int) ≠ slotState s (row * 2 + col) then
          (if zp = true ∨ v % 10 ≠ 0 ∨ row * 2 + col ≠ 0 then ((v % 10 : Nat) : Int)
           else EMPTY_SLOT)
         else slotState s (row * 2 + col)) ∧
      (∀ q, q ≠ row * 2 + col → slotState s' q = slotState s q) ∧
      s'.image_slot_state.length = 4 := by
  by_cases hP : ch = true ∨ ((v % 10 : Nat) : Int) ≠ slotState s (row * 2 + col)
  · by_cases hG : zp = true ∨ v % 10 ≠ 0 ∨ row * 2 + col ≠ 0
    · have hc := col_load okAll zp v row col ch s hslot hP hG rfl
      refine ⟨_, _, hc, ?_, ?_, ?_⟩
      · rw [if_pos hP, if_pos hG]
        simp only [slotState]
        exact getD_set_self _ _ _ _ (by omega)
      · intro q hq
        simp only [slotState]
        exact getD_set_other _ _ _ _ _ (fun he => hq he.symm)
      · simpa using hlen
    · push_neg at hG
      obtain ⟨hzp, hdig, hq0⟩ := hG
      have hr0 : row = 0 := by omega
      have hcol0 : col = 0 := by omega
      subst hr0
      subst hcol0
      have hzpf : zp = false := by simpa using hzp
      subst hzpf
      have hc := col_blank okAll v ch s
        (by
          rcases hP with h | h
          · exact Or.inl h
          · exact Or.inr h) hdig
      refine ⟨_, _, hc, ?_, ?_, ?_⟩
      · rw [if_pos hP, if_neg]
        · exact unload_slotState_self 0 s
        · rintro (h | h | h)
          · exact Bool.false_ne_true h
          · exact h hdig
          · exact h rfl
      · intro q hq
        exact (unload_other 0 q s (by omega)).1
      · rw [(unload_lengths 0 s).1]
        exact hlen
  · have hP' := not_or.mp hP
    have hchf : ch = false := by simpa using hP'.1
    have heq : ((v % 10 : Nat) : Int) = slotState s (row * 2 + col) := by
      have := hP'.2
      simpa using this
    have hc := col_skip okAll zp v row col ch s hchf heq
    refine ⟨_, _, hc, ?_, fun q _ => rfl, hlen⟩
    rw [if_neg hP]

/-- C6 amended: leading-zero blanking applies exactly at slot position
0.  In a `display_value` pass over row 0, slot 1 always ends showing its
digit; whenever slot 0's column is actually processed (forced refresh,
or its digit differs from what the slot currently shows), slot 0 ends
empty if the digit is 0 with zero-prefix off, and ends showing the digit
otherwise; if slot 0 already showed 0 and no refresh forces the column,
it is left untouched (still showing 0).  With zero-prefix on, slot 0
always ends showing its digit (a leading 0 included).  In a pass over
row 1, slots 2 and 3 always end showing their digits, including a
leading zero on slot 2. -/
theorem leading_zero_blanking :
    ∀ (zp : Bool) (v : Nat) (ch : Bool) (s : CacheState),
      s.image_slot_state.length = 4 →
      ((display_value okAll zp v 0 ch s).map (fun r => slotState r.1 1) =
          some ((v % 100 % 10 : Nat) : Int)) ∧
      ((ch = true ∨ ((v % 100 / 10 : Nat) : Int) ≠ slotState s 0) →
        (display_value okAll zp v 0 ch s).map (fun r => slotState r.1 0) =
          some (if zp = true ∨ v % 100 / 10 ≠ 0 then ((v % 100 / 10 : Nat) : Int)
            else EMPTY_SLOT)) ∧
      (zp = true →
        (display_value okAll zp v 0 ch s).map (fun r => slotState r.1 0) =
          some ((v % 100 / 10 : Nat) : Int)) ∧
      ((display_value okAll zp v 1 ch s).map (fun r => slotState r.1 2) =
          some ((v % 100 / 10 : Nat) : Int)) ∧
      ((display_value okAll zp v 1 ch s).map (fun r => slotState r.1 3) =
          some ((v % 100 % 10 : Nat) : Int)) := by
  intro zp v ch s hlen
  have hb : (v % 100 / 10) % 10 = v % 100 / 10 := by omega
  obtain ⟨s1, e1, hc1, hself1, hother1, hlen1⟩ :=
    col_final_self zp (v % 100) 0 1 ch s hlen (by omega)
  obtain ⟨s2, e2, hc0, hself0, hother0, hlen0⟩ :=
    col_final_self zp (v % 100 / 10) 0 0 ch s1 hlen1 (by omega)
  have hdv0 := dv_eq okAll zp v 0 ch s s1 s2 e1 e2 hc1 hc0
  obtain ⟨t1, f1, ht1, hselft1, hothert1, hlent1⟩ :=
    col_final_self zp (v % 100) 1 1 ch s hlen (by omega)
  obtain ⟨t2, f2, ht0, hselft0, hothert0, hlent0⟩ :=
    col_final_self zp (v % 100 / 10) 1 0 ch t1 hlent1 (by omega)
  have hdv1 := dv_eq okAll zp v 1 ch s t1 t2 f1 f2 ht1 ht0
  have hs1_0 : slotState s1 (0 * 2 + 0) = slotState s (0 * 2 + 0) :=
    hother1 (0 * 2 + 0) (by omega)
  refine ⟨?_, ?_, ?_, ?_, ?_⟩
  · -- row 0, slot 1 always shows its digit
    rw [hdv0]
    simp only [Option.map_some', Option.some.injEq]
    have hfin : slotState s2 (0 * 2 + 1) = ((v % 100 % 10 : Nat) : Int) := by
      rw [hother0 (0 * 2 + 1) (by omega)]
      by_cases hP : ch = true ∨ ((v % 100 % 10 : Nat) : Int) ≠ slotState s (0 * 2 + 1)
      · rw [hself1, if_pos hP,
          if_pos (show zp = true ∨ v % 100 % 10 ≠ 0 ∨ (0 * 2 + 1 : Nat) ≠ 0 from
            Or.inr (Or.inr (by omega)))]
      · have hne := not_or.mp hP
        have heq : ((v % 100 % 10 : Nat) : Int) = slotState s (0 * 2 + 1) := by
          by_contra hne'
          exact hne.2 hne'
        rw [hself1, if_neg hP]
        exact heq.symm
    exact hfin
  · -- row 0, slot 0 when its column is processed
    intro hPr
    rw [hdv0]
    simp only [Option.map_some', Option.some.injEq]
    have hPr' : ch = true ∨ (((v % 100 / 10) % 10 : Nat) : Int) ≠ slotState s1 (0 * 2 + 0) := by
      rcases hPr with h | h
      · exact Or.inl h
      · refine Or.inr ?_
        rw [hb, hs1_0]
        exact h
    by_cases hG : zp = true ∨ v % 100 / 10 ≠ 0
    · rw [if_pos hG]
      have hG' : zp = true ∨ (v % 100 / 10) % 10 ≠ 0 ∨ (0 * 2 + 0 : Nat) ≠ 0 := by
        rcases hG with h | h
        · exact Or.inl h
        · exact Or.inr (Or.inl (by rw [hb]; exact h))
      have hfin : slotState s2 (0 * 2 + 0) = (((v % 100 / 10) % 10 : Nat) : Int) := by
        rw [hself0, if_pos hPr', if_pos hG']
      rw [hb] at hfin
      exact hfin
    · rw [if_neg hG]
      have hG'' : ¬(zp = true ∨ (v % 100 / 10) % 10 ≠ 0 ∨ (0 * 2 + 0 : Nat) ≠ 0) := by
        rintro (h | h | h)
        · exact hG (Or.inl h)
        · rw [hb] at h
          exact hG (Or.inr h)
        · exact h rfl
      have hfin : slotState s2 (0 * 2 + 0) = EMPTY_SLOT := by
        rw [hself0, if_pos hPr', if_neg hG'']
      exact hfin
  · -- row 0, slot 0 with zero-prefix on always shows its digit
    intro hzp
    rw [hdv0]
    simp only [Option.map_some', Option.some.injEq]
    by_cases hP : ch = true ∨ (((v % 100 / 10) % 10 : Nat) : Int) ≠ slotState s1 (0 * 2 + 0)
    · have hfin : slotState s2 (0 * 2 + 0) = (((v % 100 / 10) % 10 : Nat) : Int) := by
        rw [hself0, if_pos hP, if_pos (Or.inl hzp)]
      rw [hb] at hfin
      exact hfin
    · have hne := not_or.mp hP
      have heq : (((v % 100 / 10) % 10 : Nat) : Int) = slotState s1 (0 * 2 + 0) := by
        by_contra hne'
        exact hne.2 hne'
      have hfin : slotState s2 (0 * 2 + 0) = slotState s1 (0 * 2 + 0) := by
        rw [hself0, if_neg hP]
      rw [hfin, ← heq, hb]
  · -- row 1, slot 2 always shows its digit (leading zero included)
    rw [hdv1]
    simp only [Option.map_some', Option.some.injEq]
    by_cases hP : ch = true ∨ (((v % 100 / 10) % 10 : Nat) : Int) ≠ slotState t1 (1 * 2 + 0)
    · have hfin : slotState t2 (1 * 2 + 0) = (((v % 100 / 10) % 10 : Nat) : Int) := by
        rw [hselft0, if_pos hP,
          if_pos (show zp = true ∨ (v % 100 / 10) % 10 ≠ 0 ∨ (1 * 2 + 0 : Nat) ≠ 0 from
            Or.inr (Or.inr (by omega)))]
      rw [hb] at hfin
      exact hfin
    · have hne := not_or.mp hP
      have heq : (((v % 100 / 10) % 10 : Nat) : Int) = slotState t1 (1 * 2 + 0) := by
        by_contra hne'
        exact hne.2 hne'
      have hfin : slotState t2 (1 * 2 + 0) = slotState t1 (1 * 2 + 0) := by
        rw [hselft0, if_neg hP]
      rw [hfin, ← heq, hb]
  · -- row 1, slot 3 always shows its digit
    rw [hdv1]
    simp only [Option.map_some', Option.some.injEq]
    have hfin : slotState t2 (1 * 2 + 1) = ((v % 100 % 10 : Nat) : Int) := by
      rw [hothert0 (1 * 2 + 1) (by omega)]
      by_cases hP : ch = true ∨ ((v % 100 % 10 : Nat) : Int) ≠ slotState s (1 * 2 + 1)
      · rw [hselft1, if_pos hP,
          if_pos (show zp = true ∨ v % 100 % 10 ≠ 0 ∨ (1 * 2 + 1 : Nat) ≠ 0 from
            Or.inr (Or.inr (by omega)))]
      · have hne := not_or.mp hP
        have heq : ((v % 100 % 10 : Nat) : Int) = slotState s (1 * 2 + 1) := by
          by_contra hne'
          exact hne.2 hne'
        rw [hselft1, if_neg hP]
        exact heq.symm
    exact hfin

/-- Witness for `leading_zero_blanking`: the claim's example —
`render_row(value=7, row=0, force=true)` from the empty initial state
leaves slot 0 empty with `zero_prefix=false` and showing digit 0 with
`zero_prefix=true`, and slot 1 shows digit 7 in both cases. -/
theorem leading_zero_blanking_witness :
    ((display_value okAll false 7 0 true initState).map (fun r => slotState r.1 0) =
        some (if false = true ∨ 7 % 100 / 10 ≠ 0 then ((7 % 100 / 10 : Nat) : Int)
          else EMPTY_SLOT)) ∧
    ((display_value okAll false 7 0 true initState).map (fun r => slotState r.1 1) =
        some ((7 % 100 % 10 : Nat) : Int)) ∧
    ((display_value okAll true 7 0 true initState).map (fun r => slotState r.1 0) =
        some ((7 % 100 / 10 : Nat) : Int)) ∧
    ((display_value okAll true 7 0 true initState).map (fun r => slotState r.1 1) =
        some ((7 % 100 % 10 : Nat) : Int)) :=
  ⟨(leading_zero_blanking false 7 true initState (by decide)).2.1 (Or.inl rfl),
   (leading_zero_blanking false 7 true initState (by decide)).1,
   (leading_zero_blanking true 7 true initState (by decide)).2.2.1 rfl,
   (leading_zero_blanking true 7 true initState (by decide)).1⟩

end CSTPebble
